import Mathlib

/-!
Shallow embedding of the real-time voice-segmentation and transcription
pipeline of the `speech-recognition` repository (files `src/audio.py`,
`src/live_recognition.py`, with a near-identical duplicate in
`src/script.py`), together with theorems settling the frozen claims
about it.

Modelling conventions:
* raw audio is a `List Nat` of 16-bit samples (the `np.int16` array that
  `audio_to_vad_format` produces via `np.frombuffer`); a byte string such
  as a segment is likewise a `List Nat`;
* Python `float` quantities are embedded exactly: `timestamp`/`duration`
  are `ℚ`; the comparison `num_voiced > 0.9 * ring_buffer.maxlen` is
  embedded as `10 * num_voiced > 9 * maxlen`, and
  `int(sample_rate * (frame_duration_ms / 1000.0) * 2)` as
  `sample_rate * frame_duration_ms * 2 / 1000` (truncated `Nat`
  division); at every integer boundary relevant here IEEE-754 double
  rounding agrees with the exact value, since `0.9` rounds up and the
  products round back to the nearest integer;
* the injected `webrtcvad.Vad` classifier is an opaque function
  `classify : List Nat → Bool` standing for
  `vad.is_speech(frame.bytes, sample_rate)` at the fixed sample rate;
* the opaque Google transcription call is a function
  `Nat → TransResult` giving the outcome of each successive attempt on
  one segment;
* the `queue.Queue` channels are explicit state: the list of pending
  items plus the `unfinished_tasks` counter that `put` increments and
  `task_done` decrements (`task_done` raises `ValueError` when the
  counter is already zero, which kills the calling thread; this is
  modelled by the `crashed` flag);
* logging calls are elided (they put nothing on the results queue).
-/

namespace SR

/-- One fixed-length slice of raw audio (`class Frame` in `src/audio.py`).
`bytes` is the sliced sample array `audio[offset:offset + n]`. -/
structure Frame where
  bytes : List Nat
  timestamp : ℚ
  duration : ℚ
deriving DecidableEq

/-- `b''.join([f.bytes for f in voiced_frames])`: the byte payload of a
segment built from a run of frames. -/
def segBytes (vs : List Frame) : List Nat :=
  (vs.map Frame.bytes).flatten

/-! ### `vad_collector` (src/audio.py lines 58-104) -/

/-- `collections.deque(maxlen := maxlen)` append: keep the most recent
`maxlen` entries, evicting from the left on overflow (a deque with
`maxlen = 0` stays empty). -/
def ringPush (maxlen : Nat) (ring : List (Frame × Bool)) (x : Frame × Bool) :
    List (Frame × Bool) :=
  let l := ring ++ [x]
  l.drop (l.length - maxlen)

/-- `len([f for f, speech in ring_buffer if speech])`. -/
def numVoiced (ring : List (Frame × Bool)) : Nat :=
  (ring.filter fun p => p.2).length

/-- `len([f for f, speech in ring_buffer if not speech])`. -/
def numUnvoiced (ring : List (Frame × Bool)) : Nat :=
  (ring.filter fun p => !p.2).length

/-- The mutable locals of `vad_collector`: `ring_buffer`, `triggered`,
`voiced_frames`. -/
structure VadState where
  ring : List (Frame × Bool)
  triggered : Bool
  voiced : List Frame
deriving DecidableEq

/-- Initial state of `vad_collector`: empty ring buffer, untriggered,
no voiced frames. -/
def initState : VadState := ⟨[], false, []⟩

/-- One iteration of the `for frame in frames` loop of `vad_collector`.
Returns the updated state and the list of segments yielded during this
iteration (empty or a singleton). -/
def vadStep (maxlen : Nat) (classify : List Nat → Bool) (st : VadState)
    (frame : Frame) : VadState × List (List Nat) :=
  let is_speech := classify frame.bytes
  if st.triggered = false then
    let ring := ringPush maxlen st.ring (frame, is_speech)
    if 10 * numVoiced ring > 9 * maxlen then
      (⟨[], true, st.voiced ++ ring.map Prod.fst⟩, [])
    else
      ({ st with ring := ring }, [])
  else
    let voiced := st.voiced ++ [frame]
    let ring := ringPush maxlen st.ring (frame, is_speech)
    if 10 * numUnvoiced ring > 9 * maxlen then
      (⟨[], false, []⟩, [segBytes voiced])
    else
      (⟨ring, true, voiced⟩, [])

/-- The whole `for frame in frames` loop, returning the final state and
the segments yielded inside the loop, in order. -/
def vadRun (maxlen : Nat) (classify : List Nat → Bool) :
    VadState → List Frame → VadState × List (List Nat)
  | st, [] => (st, [])
  | st, f :: fs =>
    let s := vadStep maxlen classify st f
    let r := vadRun maxlen classify s.1 fs
    (r.1, s.2 ++ r.2)

/-- `vad_collector` with the ring-buffer capacity `num_padding_frames`
already computed: runs the loop from the initial state and finally
performs `if voiced_frames: yield b''.join(...)`. -/
def vadCollectorM (maxlen : Nat) (classify : List Nat → Bool)
    (frames : List Frame) : List (List Nat) :=
  let r := vadRun maxlen classify initState frames
  r.2 ++ (if r.1.voiced = [] then [] else [segBytes r.1.voiced])

/-- `vad_collector(sample_rate, frame_duration_ms, padding_duration_ms,
vad, frames)`: `num_padding_frames = int(padding_duration_ms /
frame_duration_ms)` then the collection loop. -/
def vadCollector (frame_duration_ms padding_duration_ms : Nat)
    (classify : List Nat → Bool) (frames : List Frame) : List (List Nat) :=
  vadCollectorM (padding_duration_ms / frame_duration_ms) classify frames

/-- Decidable observer: the run from the initial state stays in the
UNTRIGGERED state after every prefix of the input. -/
def neverTriggers (maxlen : Nat) (classify : List Nat → Bool)
    (frames : List Frame) : Bool :=
  (List.range (frames.length + 1)).all fun k =>
    !((vadRun maxlen classify initState (frames.take k)).1.triggered)

/-! ### `frame_generator` (src/audio.py lines 106-129) -/

/-- `n = int(sample_rate * (frame_duration_ms / 1000.0) * 2)`:
the slice stride, computed as a byte count (2 bytes per sample). -/
def frameSize (sample_rate frame_duration_ms : Nat) : Nat :=
  sample_rate * frame_duration_ms * 2 / 1000

/-- `duration = (float(n) / sample_rate) / 2.0`. -/
def frameDurationQ (n sample_rate : Nat) : ℚ :=
  ((n : ℚ) / (sample_rate : ℚ)) / 2

/-- The `while offset + n < len(audio)` loop of `frame_generator`,
instrumented with fuel: `none` means the fuel ran out with the loop
still running, `some l` means the loop finished having yielded `l`. -/
def frameGenAux (n : Nat) (audio : List Nat) (d : ℚ) :
    Nat → Nat → ℚ → Option (List Frame)
  | 0, offset, _ =>
    if offset + n < audio.length then none else some []
  | fuel + 1, offset, ts =>
    if offset + n < audio.length then
      match frameGenAux n audio d fuel (offset + n) (ts + d) with
      | none => none
      | some rest => some (⟨(audio.drop offset).take n, ts, d⟩ :: rest)
    else some []

/-- `frame_generator(frame_duration_ms, audio, sample_rate)`.  `audio`
is the `np.int16` sample array; `audio.length` frames of fuel always
suffice when the stride is positive. -/
def frameGenerator (frame_duration_ms : Nat) (audio : List Nat)
    (sample_rate : Nat) : List Frame :=
  let n := frameSize sample_rate frame_duration_ms
  (frameGenAux n audio (frameDurationQ n sample_rate) audio.length 0 0).getD []

/-! ### `recognize_audio` (src/live_recognition.py lines 26-98) -/

/-- `MIN_AUDIO_LENGTH = 1000  # Minimum length of audio in milliseconds`
(compared in the code against `len(audio)`, a byte count). -/
def MIN_AUDIO_LENGTH : Nat := 1000

/-- `MAX_RETRIES = 3  # Maximum number of retries for short audio clips`. -/
def MAX_RETRIES : Nat := 3

/-- Outcome of one call to `recognizer.recognize_google`: success, or
one of the three exception kinds caught by `recognize_audio`
(`sr.UnknownValueError`, `sr.RequestError`, any other `Exception`). -/
inductive TransResult where
  | ok (text : String)
  | unknownValue
  | requestError (e : String)
  | otherError (e : String)
deriving DecidableEq

/-- Message for `sr.UnknownValueError`. -/
def unintelligibleMsg : String :=
  "Google Speech Recognition could not understand audio"

/-- Message for `sr.RequestError`. -/
def requestErrMsg (e : String) : String :=
  "Failed to fetch from Google Speech Recognition service; " ++ e

/-- Message for any other exception. -/
def otherErrMsg (e : String) : String :=
  "Error recognizing audio: " ++ e

/-- A value put on `results_queue`: either a transcription or an error
message from `handle_recognition_error`. -/
inductive Outcome where
  | transcript (text : String)
  | failure (msg : String)
deriving DecidableEq

/-- What one attempt puts on `results_queue`: the transcription on
success, the error message via `handle_recognition_error` on failure. -/
def reportOf : TransResult → Outcome
  | TransResult.ok t => Outcome.transcript t
  | TransResult.unknownValue => Outcome.failure unintelligibleMsg
  | TransResult.requestError e => Outcome.failure (requestErrMsg e)
  | TransResult.otherError e => Outcome.failure (otherErrMsg e)

/-- Result of processing one segment popped from `audio_queue`:
everything put on `results_queue` (in order), the number of
`recognize_google` calls made, the remaining `unfinished_tasks` count of
`audio_queue`, and whether `audio_queue.task_done()` raised `ValueError`
(killing the thread). -/
structure SegResult where
  reports : List Outcome
  calls : Nat
  unfinished : Nat
  crashed : Bool
deriving DecidableEq

/-- The `while retries < MAX_RETRIES` loop of `recognize_audio`.
`attempt` counts calls already made on this segment, `rem` is
`MAX_RETRIES - retries`, `unfin` is `audio_queue.unfinished_tasks`.
Each iteration calls `recognize_google`, puts one item on
`results_queue` (transcription or error message), then runs the
`finally: audio_queue.task_done()` — which raises when `unfin = 0` —
and finally either breaks (success, or audio not short) or retries. -/
def attemptLoop (behave : Nat → TransResult) (alen : Nat) :
    Nat → Nat → Nat → SegResult
  | _, 0, unfin => ⟨[], 0, unfin, false⟩
  | attempt, rem + 1, unfin =>
    let r := behave attempt
    if unfin = 0 then
      ⟨[reportOf r], 1, 0, true⟩
    else
      match r with
      | TransResult.ok t => ⟨[Outcome.transcript t], 1, unfin - 1, false⟩
      | _ =>
        if alen < MIN_AUDIO_LENGTH then
          let res := attemptLoop behave alen (attempt + 1) rem (unfin - 1)
          ⟨reportOf r :: res.reports, res.calls + 1, res.unfinished, res.crashed⟩
        else
          ⟨[reportOf r], 1, unfin - 1, false⟩

/-- Process one segment taken from `audio_queue` (the body of the outer
loop of `recognize_audio` after a successful `get`). -/
def processSegment (behave : Nat → TransResult) (audio : List Nat)
    (unfin : Nat) : SegResult :=
  attemptLoop behave audio.length 0 MAX_RETRIES unfin

/-- How a run of the outer `while not stop_event.is_set()` loop ends:
the stop event was observed, the thread died from the `task_done`
`ValueError`, or the allotted fuel ran out with the loop still going. -/
inductive RunExit where
  | stopped
  | crashed
  | outOfFuel
deriving DecidableEq

/-- The outer loop of `recognize_audio`, sequential semantics: `queue`
is the pending content of `audio_queue` (each segment paired with the
behaviour of the transcription service on it), `unfin` its
`unfinished_tasks` count, `stop` the value of `stop_event.is_set()` at
each iteration.  An empty queue makes `get` time out and the loop
`continue`. -/
def recognizeAudio (stop : Nat → Bool) :
    Nat → Nat → List (List Nat × (Nat → TransResult)) → Nat →
    List Outcome × RunExit
  | 0, _, _, _ => ([], RunExit.outOfFuel)
  | fuel + 1, iter, queue, unfin =>
    if stop iter then ([], RunExit.stopped)
    else
      match queue with
      | [] => recognizeAudio stop fuel (iter + 1) [] unfin
      | (audio, behave) :: rest =>
        let r := processSegment behave audio unfin
        if r.crashed then (r.reports, RunExit.crashed)
        else
          let k := recognizeAudio stop fuel (iter + 1) rest r.unfinished
          (r.reports ++ k.1, k.2)

/-! ### Observers used to state the segmentation claims -/

/-- State well-formedness maintained by `vad_collector`: the voiced
buffer is non-empty exactly in the TRIGGERED state. -/
def WF (st : VadState) : Prop :=
  (st.triggered = true → st.voiced ≠ []) ∧
  (st.triggered = false → st.voiced = [])

/-- The frames the in-flight part of the state may still contribute to
future segments: the voiced buffer when TRIGGERED, the ring-buffer
frames when UNTRIGGERED.  Always a suffix of the frames processed so
far. -/
def pending (st : VadState) : List Frame :=
  if st.triggered then st.voiced else st.ring.map Prod.fst

/-- `Chained fs segs leftover` says the byte strings `segs` are, in
order, the concatenated bytes of pairwise disjoint contiguous blocks of
consecutive frames of `fs`, each block non-empty, each block occurring
strictly after the previous one; `leftover` is a suffix of `fs` lying
entirely after the last block. -/
inductive Chained : List Frame → List (List Nat) → List Frame → Prop
  | nil (pre fs : List Frame) : Chained (pre ++ fs) [] fs
  | cons (pre blk fs : List Frame) (segs : List (List Nat))
      (leftover : List Frame) :
      blk ≠ [] → Chained fs segs leftover →
      Chained (pre ++ (blk ++ fs)) (segBytes blk :: segs) leftover

/-! ## Theorems

### FrameSlicer: C6, C7, C10 -/

/-- Unfolding lemma for `vadRun` on the empty frame list. -/
theorem vadRun_nil (maxlen : Nat) (classify : List Nat → Bool)
    (st : VadState) : vadRun maxlen classify st [] = (st, []) := rfl

/-- Unfolding lemma for `vadRun` on a cons cell. -/
theorem vadRun_cons (maxlen : Nat) (classify : List Nat → Bool)
    (st : VadState) (f : Frame) (fs : List Frame) :
    vadRun maxlen classify st (f :: fs) =
      ((vadRun maxlen classify (vadStep maxlen classify st f).1 fs).1,
       (vadStep maxlen classify st f).2 ++
         (vadRun maxlen classify (vadStep maxlen classify st f).1 fs).2) :=
  rfl

/-- With a positive stride, `audio.length - offset` iterations of fuel
let the slicing loop finish, and it yields exactly
`(audio.length - offset - 1) / n` frames. -/
theorem frameGenAux_some (n : Nat) (audio : List Nat) (d : ℚ) (hn : 1 ≤ n) :
    ∀ (fuel offset : Nat) (ts : ℚ), audio.length - offset ≤ fuel →
      ∃ l, frameGenAux n audio d fuel offset ts = some l ∧
        l.length = (audio.length - offset - 1) / n := by
  intro fuel
  induction fuel with
  | zero =>
    intro offset ts h
    refine ⟨[], ?_, ?_⟩
    · simp only [frameGenAux, if_neg (by omega : ¬ offset + n < audio.length)]
    · have : audio.length - offset - 1 = 0 := by omega
      simp [this]
  | succ fuel ih =>
    intro offset ts h
    by_cases hlt : offset + n < audio.length
    · obtain ⟨rest, hrest, hlen⟩ :=
        ih (offset + n) (ts + d) (by omega)
      refine ⟨⟨(audio.drop offset).take n, ts, d⟩ :: rest, ?_, ?_⟩
      · simp only [frameGenAux, if_pos hlt, hrest]
      · have hx : n ≤ audio.length - offset - 1 := by omega
        have harg : audio.length - (offset + n) - 1 =
            audio.length - offset - 1 - n := by omega
        rw [List.length_cons, hlen, harg,
          Nat.div_eq (audio.length - offset - 1) n, if_pos ⟨by omega, hx⟩]
    · refine ⟨[], ?_, ?_⟩
      · simp only [frameGenAux, if_neg hlt]
      · rw [List.length_nil, eq_comm, Nat.div_eq_of_lt (by omega)]

/-- With stride `0` and a non-empty buffer, the slicing loop never
finishes, whatever the fuel. -/
theorem frameGenAux_none (audio : List Nat) (d : ℚ) (ha : audio ≠ []) :
    ∀ (fuel : Nat) (ts : ℚ), frameGenAux 0 audio d fuel 0 ts = none := by
  have hlen : 0 < audio.length := List.length_pos.mpr ha
  intro fuel
  induction fuel with
  | zero => intro ts; simp only [frameGenAux, if_pos (by omega : 0 + 0 < audio.length)]
  | succ fuel ih =>
    intro ts
    simp only [frameGenAux, if_pos (by omega : 0 + 0 < audio.length)]
    rw [ih (ts + d)]

/-- C10: `frame_generator` terminates on a finite buffer exactly when
the computed stride `n = int(sample_rate * (frame_duration_ms / 1000.0)
* 2)` is at least 1 or the buffer is empty; the precondition
`sample_rate * frame_duration_ms >= 500` forces `n >= 1` (so the
generator is total there); with `n = 0` and a non-empty buffer the loop
runs forever. -/
theorem frame_generator_termination_iff (frame_duration_ms sample_rate : Nat)
    (audio : List Nat) :
    ((∃ fuel, (frameGenAux (frameSize sample_rate frame_duration_ms) audio
        (frameDurationQ (frameSize sample_rate frame_duration_ms) sample_rate)
        fuel 0 0).isSome) ↔
      1 ≤ frameSize sample_rate frame_duration_ms ∨ audio = []) ∧
    (500 ≤ sample_rate * frame_duration_ms →
      1 ≤ frameSize sample_rate frame_duration_ms) ∧
    (frameSize sample_rate frame_duration_ms = 0 → audio ≠ [] →
      ∀ fuel, frameGenAux (frameSize sample_rate frame_duration_ms) audio
        (frameDurationQ (frameSize sample_rate frame_duration_ms) sample_rate)
        fuel 0 0 = none) := by
  refine ⟨⟨?_, ?_⟩, ?_, ?_⟩
  · intro ⟨fuel, hsome⟩
    by_contra hneg
    push_neg at hneg
    obtain ⟨hn, ha⟩ := hneg
    have h0 : frameSize sample_rate frame_duration_ms = 0 := by omega
    rw [h0, frameGenAux_none audio _ ha fuel 0] at hsome
    exact Bool.noConfusion hsome
  · rintro (hn | ha)
    · obtain ⟨l, hl, _⟩ := frameGenAux_some _ audio _ hn audio.length 0 0 (by omega)
      exact ⟨audio.length, by rw [hl]; rfl⟩
    · subst ha
      exact ⟨0, by simp [frameGenAux]⟩
  · intro h
    have : 1000 ≤ sample_rate * frame_duration_ms * 2 := by omega
    exact (Nat.le_div_iff_mul_le (by omega)).mpr (by omega)
  · intro h0 ha fuel
    rw [h0]
    exact frameGenAux_none audio _ ha fuel 0

/-- Closed witness for C10: the biconditional, the totality precondition
and the divergence case, each applied at a concrete instance. -/
theorem frame_generator_termination_iff_witness :
    (∃ fuel, (frameGenAux (frameSize 16000 20) [0]
      (frameDurationQ (frameSize 16000 20) 16000) fuel 0 0).isSome) ∧
    1 ≤ frameSize 16000 20 ∧
    frameGenAux (frameSize 100 1) [0] (frameDurationQ (frameSize 100 1) 100)
      5 0 0 = none :=
  ⟨(frame_generator_termination_iff 20 16000 [0]).1.mpr (Or.inl (by decide)),
   (frame_generator_termination_iff 20 16000 [0]).2.1 (by decide),
   (frame_generator_termination_iff 1 100 [0]).2.2 (by decide) (by decide) 5⟩

/-- C6 (bug evidence): with sample rate 1000 and frame duration 10 ms
the claim demands frames of `1000 * 10 / 1000 = 10` samples, but the
produced frame holds 20 array elements: the stride is computed as a byte
count (factor 2) yet used to slice the `int16` sample array, so every
frame spans twice the configured number of samples. -/
theorem frame_span_double_eval :
    ((frameGenerator 10 (List.replicate 21 0) 1000).map
      fun fr => fr.bytes.length) = [20] ∧
    1000 * 10 / 1000 = 10 ∧ (20 : Nat) ≠ 10 := by
  refine ⟨by decide, by decide, by decide⟩

/-- C7 (counterexample): an input whose length (2 samples) is an exact
multiple of the stride (`frameSize 1000 1 = 2`) yields zero frames, not
`2 / 2 = 1`: the strict `<` in `while offset + n < len(audio)` drops the
final frame even when it exactly fills the remaining input. -/
theorem exact_multiple_drops_last_frame :
    (frameGenerator 1 [5, 6] 1000).length ≠
      ([5, 6] : List Nat).length / frameSize 1000 1 := by
  decide

/-- C7 (amended): with a positive stride `n`, `frame_generator` yields
exactly `(len(audio) - 1) / n` frames — equivalently `len / n` rounded
down, except that when `len` is a positive exact multiple of `n` the
final full frame is also dropped, giving `len / n - 1`. -/
theorem frame_count_eq_pred_div (frame_duration_ms sample_rate : Nat)
    (audio : List Nat) (hn : 1 ≤ frameSize sample_rate frame_duration_ms) :
    (frameGenerator frame_duration_ms audio sample_rate).length =
      (audio.length - 1) / frameSize sample_rate frame_duration_ms := by
  obtain ⟨l, hl, hlen⟩ := frameGenAux_some (frameSize sample_rate frame_duration_ms)
    audio (frameDurationQ (frameSize sample_rate frame_duration_ms) sample_rate)
    hn audio.length 0 0 (by omega)
  simp only [frameGenerator, hl, Option.getD_some]
  simpa using hlen

/-- Closed witness for C7's amended count formula at a concrete input:
3 samples with stride 2 give `(3 - 1) / 2 = 1` frame. -/
theorem frame_count_eq_pred_div_witness :
    (frameGenerator 1 [5, 6, 7] 1000).length =
      (([5, 6, 7] : List Nat).length - 1) / frameSize 1000 1 :=
  frame_count_eq_pred_div 1 1000 [5, 6, 7] (by decide)

/-! ### RecognitionLoop: C2, C3, C8 -/

/-- C2 (counterexample): a 10-byte segment (below the minimum-length
threshold) on which every attempt raises `Unintelligible` produces three
failure reports on the results channel — one per attempt, since
`handle_recognition_error` runs inside every `except` branch — not the
single report the claim states. -/
theorem short_segment_three_reports_not_one :
    (processSegment (fun _ => TransResult.unknownValue)
      (List.replicate 10 0) 3).reports.length = 3 ∧
    (List.replicate 10 0).length < MIN_AUDIO_LENGTH ∧
    ¬ (processSegment (fun _ => TransResult.unknownValue)
      (List.replicate 10 0) 3).reports.length = 1 := by
  refine ⟨by decide, by decide, by decide⟩

/-- C2 (amended): a segment below the minimum-length threshold on which
every attempt fails with `Unintelligible` gets exactly 3 transcription
calls and exactly 3 failure reports on the results channel (one per
failed attempt; the final max-retries message is only logged), provided
the segment channel's unacknowledged-put count is at least 3 so that the
per-attempt `task_done` does not overrun. -/
theorem short_segment_three_calls_three_reports
    (audio : List Nat) (behave : Nat → TransResult) (unfin : Nat)
    (hshort : audio.length < MIN_AUDIO_LENGTH)
    (hfail : ∀ i, behave i = TransResult.unknownValue)
    (hun : 3 ≤ unfin) :
    processSegment behave audio unfin =
      ⟨List.replicate 3 (Outcome.failure unintelligibleMsg), 3,
        unfin - 3, false⟩ := by
  obtain ⟨u, rfl⟩ : ∃ u, unfin = u + 3 := ⟨unfin - 3, by omega⟩
  simp [processSegment, MAX_RETRIES, attemptLoop, hfail 0, hfail 1, hfail 2,
    hshort, reportOf, List.replicate]

/-- Closed witness for C2's amended statement at a concrete short
segment with three unacknowledged puts. -/
theorem short_segment_three_calls_three_reports_witness :
    processSegment (fun _ => TransResult.unknownValue) [0] 3 =
      ⟨List.replicate 3 (Outcome.failure unintelligibleMsg), 3, 0, false⟩ :=
  short_segment_three_calls_three_reports [0] (fun _ => TransResult.unknownValue)
    3 (by decide) (fun _ => rfl) (by decide)

/-- C3 (bug evidence): a 2000-byte segment — far below the claim's
32000-byte (1000 ms at 16 kHz, 2 bytes/sample) threshold — that fails
with `Unintelligible` gets exactly one call and one report, with zero
retries: the code compares the byte length against
`MIN_AUDIO_LENGTH = 1000`, a constant documented as milliseconds but
used as a byte count. -/
theorem length_threshold_bytes_not_ms :
    processSegment (fun _ => TransResult.unknownValue)
      (List.replicate 2000 0) 1 =
      ⟨[Outcome.failure unintelligibleMsg], 1, 0, false⟩ ∧
    (List.replicate 2000 0).length < 32000 ∧
    ¬ (List.replicate 2000 0).length < MIN_AUDIO_LENGTH := by
  refine ⟨?_, ?_, ?_⟩
  · simp only [processSegment, List.length_replicate]
    decide
  · simp only [List.length_replicate]
    decide
  · simp only [List.length_replicate]
    decide

/-- C8 (bug evidence): a queue holding a short always-`Unintelligible`
segment followed by a perfectly transcribable one, with the stop signal
never set: the retry loop calls `audio_queue.task_done()` once per
attempt although only one item was fetched, so the counter overruns,
`ValueError` is raised, and the recognition loop dies without
cancellation — the second segment is never processed and its transcript
never reported. -/
theorem task_done_overrun_crashes_loop :
    recognizeAudio (fun _ => false) 10 0
      [(List.replicate 10 0, fun _ => TransResult.unknownValue),
       ([1, 2, 3], fun _ => TransResult.ok "ok")] 2 =
      ([Outcome.failure unintelligibleMsg, Outcome.failure unintelligibleMsg,
        Outcome.failure unintelligibleMsg], RunExit.crashed) ∧
    RunExit.crashed ≠ RunExit.stopped ∧
    ¬ Outcome.transcript "ok" ∈
      (recognizeAudio (fun _ => false) 10 0
        [(List.replicate 10 0, fun _ => TransResult.unknownValue),
         ([1, 2, 3], fun _ => TransResult.ok "ok")] 2).1 := by
  refine ⟨by decide, by decide, by decide⟩

/-! ### VoiceSegmenter trigger condition: C1, C5 -/

/-- C1 (counterexample): with ring-buffer capacity 2, after one
speech-classified frame is pushed while UNTRIGGERED, every frame
currently in the ring buffer is speech (fraction 1 > 0.9) yet the state
does not transition to TRIGGERED: the code compares the speech count
against 0.9 times the buffer capacity `maxlen`, not the current
occupancy. -/
theorem untriggered_full_fraction_no_transition :
    (vadRun 2 (fun _ => true) initState [⟨[1], 0, 0⟩]).1.triggered = false ∧
    10 * numVoiced (vadRun 2 (fun _ => true) initState [⟨[1], 0, 0⟩]).1.ring >
      9 * ((vadRun 2 (fun _ => true) initState [⟨[1], 0, 0⟩]).1.ring).length := by
  refine ⟨by decide, by decide⟩

/-- C1 (amended): while UNTRIGGERED, after pushing a frame the state
transitions to TRIGGERED exactly when the number of speech-classified
frames in the ring buffer exceeds 0.9 times the ring buffer's fixed
capacity `maxlen` (not 0.9 of its current occupancy); on that transition
the ring-buffer frames are appended in order to the voiced-segment
buffer, the ring buffer is cleared, and nothing is yielded. -/
theorem untriggered_transition_iff_capacity_fraction
    (maxlen : Nat) (classify : List Nat → Bool) (st : VadState) (f : Frame)
    (h : st.triggered = false) :
    ((vadStep maxlen classify st f).1.triggered = true ↔
      10 * numVoiced (ringPush maxlen st.ring (f, classify f.bytes)) >
        9 * maxlen) ∧
    ((vadStep maxlen classify st f).1.triggered = true →
      (vadStep maxlen classify st f).1.voiced =
        st.voiced ++ (ringPush maxlen st.ring (f, classify f.bytes)).map Prod.fst ∧
      (vadStep maxlen classify st f).1.ring = [] ∧
      (vadStep maxlen classify st f).2 = []) := by
  simp only [vadStep, h, if_pos]
  split
  · next hc => exact ⟨⟨fun _ => hc, fun _ => rfl⟩, fun _ => ⟨rfl, rfl, rfl⟩⟩
  · next hc =>
    refine ⟨⟨fun ht => ?_, fun hcc => absurd hcc hc⟩, fun ht => ?_⟩ <;>
      simp at ht

/-- Closed witness for C1's amended trigger condition: with capacity 1 a
single speech frame triggers (10 * 1 > 9 * 1). -/
theorem untriggered_transition_iff_capacity_fraction_witness :
    (vadStep 1 (fun _ => true) initState ⟨[1], 0, 0⟩).1.triggered = true :=
  ((untriggered_transition_iff_capacity_fraction 1 (fun _ => true) initState
    ⟨[1], 0, 0⟩ rfl).1).mpr (by decide)

/-- With ring-buffer capacity 0 every deque append is discarded, so one
step of `vad_collector` from the initial state returns to the initial
state. -/
theorem vadStep_zero_capacity (classify : List Nat → Bool) (f : Frame) :
    vadStep 0 classify initState f = (initState, []) := rfl

/-- The `vad_collector` loop with ring-buffer capacity 0 stays in the
initial (UNTRIGGERED, empty-buffer) state forever and yields nothing. -/
theorem vadRun_zero_capacity (classify : List Nat → Bool) :
    ∀ frames : List Frame, vadRun 0 classify initState frames = (initState, []) := by
  intro frames
  induction frames with
  | nil => rfl
  | cons f fs ih =>
    rw [vadRun_cons, vadStep_zero_capacity, ih]
    rfl

/-- C5 (counterexample): with `padding_duration_ms = 20` and
`frame_duration_ms = 30` the capacity `int(20 / 30)` is zero, and a
speech-classified frame leaves the segmenter UNTRIGGERED with no
segment emitted — refuting the claimed immediate-trigger degeneration. -/
theorem zero_capacity_speech_no_segment :
    vadCollector 30 20 (fun _ => true) [⟨[1], 0, 0⟩] = [] ∧
    (vadRun (20 / 30) (fun _ => true) initState [⟨[1], 0, 0⟩]).1.triggered
      = false := by
  refine ⟨by decide, by decide⟩

/-- C5 (amended): when the ring-buffer capacity
`int(padding_duration_ms / frame_duration_ms)` is zero, `vad_collector`
never enters TRIGGERED and emits zero segments on every input: appends
to a zero-capacity deque are discarded, so the speech count stays 0 and
`0 > 0.9 * 0` never holds. -/
theorem zero_capacity_never_triggers
    (frame_duration_ms padding_duration_ms : Nat)
    (classify : List Nat → Bool) (frames : List Frame)
    (h : padding_duration_ms / frame_duration_ms = 0) :
    vadCollector frame_duration_ms padding_duration_ms classify frames = [] ∧
    (vadRun (padding_duration_ms / frame_duration_ms) classify initState
      frames).1 = initState := by
  refine ⟨?_, ?_⟩
  · rw [vadCollector, h, vadCollectorM, vadRun_zero_capacity]
    rfl
  · rw [h, vadRun_zero_capacity]

/-- Closed witness for C5's amended statement at a concrete
zero-capacity configuration with voiced input. -/
theorem zero_capacity_never_triggers_witness :
    vadCollector 30 20 (fun _ => true) [⟨[1], 0, 0⟩, ⟨[2], 0, 0⟩] = [] :=
  (zero_capacity_never_triggers 30 20 (fun _ => true)
    [⟨[1], 0, 0⟩, ⟨[2], 0, 0⟩] (by decide)).1

/-! ### VoiceSegmenter global structure: C4, C9 -/

/-- Unfolding lemma for `vadCollectorM`. -/
theorem vadCollectorM_eq (maxlen : Nat) (classify : List Nat → Bool)
    (frames : List Frame) :
    vadCollectorM maxlen classify frames =
      (vadRun maxlen classify initState frames).2 ++
        (if (vadRun maxlen classify initState frames).1.voiced = [] then []
         else [segBytes (vadRun maxlen classify initState frames).1.voiced]) :=
  rfl

/-- `vadStep` in the UNTRIGGERED state, fully reduced. -/
theorem vadStep_untriggered (maxlen : Nat) (classify : List Nat → Bool)
    (ring : List (Frame × Bool)) (voiced : List Frame) (f : Frame) :
    vadStep maxlen classify ⟨ring, false, voiced⟩ f =
      (if 10 * numVoiced (ringPush maxlen ring (f, classify f.bytes)) >
          9 * maxlen then
        (⟨[], true,
          voiced ++ (ringPush maxlen ring (f, classify f.bytes)).map Prod.fst⟩,
         [])
      else
        (⟨ringPush maxlen ring (f, classify f.bytes), false, voiced⟩, [])) :=
  rfl

/-- `vadStep` in the TRIGGERED state, fully reduced. -/
theorem vadStep_triggered (maxlen : Nat) (classify : List Nat → Bool)
    (ring : List (Frame × Bool)) (voiced : List Frame) (f : Frame) :
    vadStep maxlen classify ⟨ring, true, voiced⟩ f =
      (if 10 * numUnvoiced (ringPush maxlen ring (f, classify f.bytes)) >
          9 * maxlen then
        (⟨[], false, []⟩, [segBytes (voiced ++ [f])])
      else
        (⟨ringPush maxlen ring (f, classify f.bytes), true, voiced ++ [f]⟩,
         [])) :=
  rfl

/-- If the trigger condition holds, the just-pushed ring buffer is
non-empty (the speech count must be at least 1). -/
theorem trigger_ring_ne {maxlen : Nat} {ring : List (Frame × Bool)}
    (hc : 10 * numVoiced ring > 9 * maxlen) : ring ≠ [] := by
  intro h
  subst h
  simp [numVoiced] at hc

/-- Pushing onto the ring buffer keeps its frame sequence a suffix of
the previous frame sequence extended by the new frame. -/
theorem ringPush_map_fst_suffix (maxlen : Nat) (ring : List (Frame × Bool))
    (x : Frame × Bool) :
    ∃ pre0, ring.map Prod.fst ++ [x.1] =
      pre0 ++ (ringPush maxlen ring x).map Prod.fst := by
  refine ⟨((ring ++ [x]).map Prod.fst).take ((ring ++ [x]).length - maxlen), ?_⟩
  have hm : ring.map Prod.fst ++ [x.1] = (ring ++ [x]).map Prod.fst := by simp
  simp only [ringPush, hm, List.map_drop]
  exact (List.take_append_drop _ _).symm

/-- A `Chained` decomposition survives prepending frames before the
first block. -/
theorem Chained.prepend (pre0 : List Frame) {fs : List Frame}
    {segs : List (List Nat)} {lo : List Frame} (h : Chained fs segs lo) :
    Chained (pre0 ++ fs) segs lo := by
  induction h with
  | nil pre fs =>
    rw [← List.append_assoc]
    exact Chained.nil (pre0 ++ pre) fs
  | cons pre blk fs segs lo hb hc ih =>
    rw [← List.append_assoc]
    exact Chained.cons (pre0 ++ pre) blk fs segs lo hb hc

/-- A `Chained` decomposition whose leftover ends in a non-empty block
can emit that block as one more final segment. -/
theorem Chained.snoc {fs : List Frame} {segs : List (List Nat)}
    {lo : List Frame} (h : Chained fs segs lo) :
    ∀ g blk : List Frame, lo = g ++ blk → blk ≠ [] →
      Chained fs (segs ++ [segBytes blk]) [] := by
  induction h with
  | nil pre fs =>
    intro g blk heq hb
    subst heq
    have hsplit : pre ++ (g ++ blk) = (pre ++ g) ++ (blk ++ []) := by simp
    rw [hsplit]
    exact Chained.cons (pre ++ g) blk [] [] [] hb (Chained.nil [] [])
  | cons pre blk0 fs segs lo hb0 hc ih =>
    intro g blk heq hb
    rw [List.cons_append]
    exact Chained.cons pre blk0 fs (segs ++ [segBytes blk]) [] hb0
      (ih g blk heq hb)

/-- Case analysis on one `vad_collector` step: the state stays
well-formed, and either nothing is yielded and the pending frames of the
new state are a suffix of the old pending frames extended by the new
frame, or (detrigger) the voiced buffer extended by the new frame is
yielded as one segment and the new state has no pending frames. -/
theorem vadStep_cases (maxlen : Nat) (classify : List Nat → Bool)
    (st : VadState) (f : Frame) (hwf : WF st) :
    WF (vadStep maxlen classify st f).1 ∧
    (((vadStep maxlen classify st f).2 = [] ∧
      ∃ pre0, pending st ++ [f] =
        pre0 ++ pending (vadStep maxlen classify st f).1) ∨
     (st.triggered = true ∧
      (vadStep maxlen classify st f).2 = [segBytes (st.voiced ++ [f])] ∧
      pending (vadStep maxlen classify st f).1 = [])) := by
  obtain ⟨ring, trig, voiced⟩ := st
  obtain ⟨pre0, hpre0⟩ :=
    ringPush_map_fst_suffix maxlen ring (f, classify f.bytes)
  cases trig with
  | false =>
    have hv : voiced = [] := hwf.2 rfl
    subst hv
    rw [vadStep_untriggered]
    split
    · next hc =>
      refine ⟨⟨fun _ => ?_, fun hf => Bool.noConfusion hf⟩,
        Or.inl ⟨rfl, pre0, ?_⟩⟩
      · show [] ++ (ringPush maxlen ring (f, classify f.bytes)).map Prod.fst ≠ []
        rw [List.nil_append, Ne, List.map_eq_nil_iff]
        exact trigger_ring_ne hc
      · show ring.map Prod.fst ++ [f] =
          pre0 ++ ([] ++ (ringPush maxlen ring (f, classify f.bytes)).map Prod.fst)
        rw [List.nil_append]
        exact hpre0
    · next hc =>
      refine ⟨⟨fun ht => Bool.noConfusion ht, fun _ => rfl⟩,
        Or.inl ⟨rfl, pre0, ?_⟩⟩
      show ring.map Prod.fst ++ [f] =
        pre0 ++ (ringPush maxlen ring (f, classify f.bytes)).map Prod.fst
      exact hpre0
  | true =>
    rw [vadStep_triggered]
    split
    · next hc =>
      refine ⟨⟨fun ht => Bool.noConfusion ht, fun _ => rfl⟩,
        Or.inr ⟨rfl, rfl, ?_⟩⟩
      simp [pending]
    · next hc =>
      refine ⟨⟨fun _ => by simp, fun hf => Bool.noConfusion hf⟩,
        Or.inl ⟨rfl, [], ?_⟩⟩
      simp [pending]

/-- Invariant of the `vad_collector` loop: from any well-formed state,
the segments yielded over the rest of the input are the byte strings of
disjoint, ordered, contiguous blocks of `pending st ++ todo`, and the
frames still pending in the final state sit after the last such block. -/
theorem vadRun_chained (maxlen : Nat) (classify : List Nat → Bool) :
    ∀ (todo : List Frame) (st : VadState), WF st →
      WF (vadRun maxlen classify st todo).1 ∧
      ∃ g, Chained (pending st ++ todo)
        (vadRun maxlen classify st todo).2
        (g ++ pending (vadRun maxlen classify st todo).1) := by
  intro todo
  induction todo with
  | nil =>
    intro st hwf
    refine ⟨hwf, [], ?_⟩
    simpa using Chained.nil [] (pending st)
  | cons f rest ih =>
    intro st hwf
    obtain ⟨hwf1, hsplit⟩ := vadStep_cases maxlen classify st f hwf
    obtain ⟨hwfF, g, hch⟩ := ih (vadStep maxlen classify st f).1 hwf1
    rw [vadRun_cons]
    refine ⟨hwfF, ?_⟩
    rcases hsplit with ⟨hout, pre0, hpend⟩ | ⟨htrig, hout, hpend0⟩
    · refine ⟨g, ?_⟩
      rw [hout, List.nil_append]
      have hbase : pending st ++ f :: rest =
          pre0 ++ (pending (vadStep maxlen classify st f).1 ++ rest) := by
        rw [List.append_cons, hpend, List.append_assoc]
      rw [hbase]
      exact Chained.prepend pre0 hch
    · refine ⟨g, ?_⟩
      rw [hout, List.singleton_append]
      have hps : pending st = st.voiced := by simp [pending, htrig]
      have hbase : pending st ++ f :: rest = (st.voiced ++ [f]) ++ rest := by
        rw [List.append_cons, hps]
      rw [hbase]
      rw [hpend0, List.nil_append] at hch
      have := Chained.cons [] (st.voiced ++ [f]) rest
        (vadRun maxlen classify (vadStep maxlen classify st f).1 rest).2
        (g ++ pending (vadRun maxlen classify
          (vadStep maxlen classify st f).1 rest).1) (by simp) hch
      simpa using this

/-- C9: every segment yielded by `vad_collector` is the in-order
concatenation of the bytes of a non-empty contiguous block of
consecutive input frames, and the blocks of successive segments are
pairwise disjoint and occur in strictly increasing input order (this is
what `Chained` expresses). -/
theorem segments_are_ordered_disjoint_blocks (maxlen : Nat)
    (classify : List Nat → Bool) (frames : List Frame) :
    ∃ leftover,
      Chained frames (vadCollectorM maxlen classify frames) leftover := by
  obtain ⟨hwfF, g, hch⟩ := vadRun_chained maxlen classify frames initState
    ⟨fun h => Bool.noConfusion h, fun _ => rfl⟩
  have hpend : pending initState = [] := rfl
  rw [hpend, List.nil_append] at hch
  by_cases hv : (vadRun maxlen classify initState frames).1.voiced = []
  · refine ⟨g ++ pending (vadRun maxlen classify initState frames).1, ?_⟩
    rw [vadCollectorM_eq, if_pos hv, List.append_nil]
    exact hch
  · have htr : (vadRun maxlen classify initState frames).1.triggered = true := by
      cases hcase : (vadRun maxlen classify initState frames).1.triggered with
      | false => exact absurd (hwfF.2 hcase) hv
      | true => rfl
    have hpF : pending (vadRun maxlen classify initState frames).1 =
        (vadRun maxlen classify initState frames).1.voiced := by
      simp [pending, htr]
    rw [hpF] at hch
    refine ⟨[], ?_⟩
    rw [vadCollectorM_eq, if_neg hv]
    exact Chained.snoc hch g _ rfl hv

/-- The loop never leaves the UNTRIGGERED state on any prefix of the
input: then nothing is yielded and the voiced buffer stays empty. -/
theorem vadRun_never_triggered (maxlen : Nat) (classify : List Nat → Bool) :
    ∀ (todo : List Frame) (st : VadState),
      st.triggered = false → st.voiced = [] →
      (∀ k, (vadRun maxlen classify st (todo.take k)).1.triggered = false) →
      (vadRun maxlen classify st todo).2 = [] ∧
      (vadRun maxlen classify st todo).1.voiced = [] := by
  intro todo
  induction todo with
  | nil =>
    intro st _ hv _
    exact ⟨rfl, hv⟩
  | cons f rest ih =>
    intro st htr hv hk
    have h1 : (vadStep maxlen classify st f).1.triggered = false := by
      have := hk 1
      rw [List.take_succ_cons, List.take_zero, vadRun_cons] at this
      exact this
    have hstep : (vadStep maxlen classify st f).1.voiced = st.voiced ∧
        (vadStep maxlen classify st f).2 = [] := by
      obtain ⟨ring, trig, voiced⟩ := st
      cases trig with
      | false =>
        by_cases hc : 10 * numVoiced
            (ringPush maxlen ring (f, classify f.bytes)) > 9 * maxlen
        · rw [vadStep_untriggered, if_pos hc] at h1
          exact Bool.noConfusion h1
        · rw [vadStep_untriggered, if_neg hc]
          exact ⟨rfl, rfl⟩
      | true => exact Bool.noConfusion htr
    have hk' : ∀ k, (vadRun maxlen classify (vadStep maxlen classify st f).1
        (rest.take k)).1.triggered = false := by
      intro k
      have := hk (k + 1)
      rw [List.take_succ_cons, vadRun_cons] at this
      exact this
    obtain ⟨ho, hvd⟩ := ih (vadStep maxlen classify st f).1 h1
      (hstep.1.trans hv) hk'
    rw [vadRun_cons]
    exact ⟨by rw [hstep.2, ho, List.append_nil], hvd⟩

/-- C4: if the input is exhausted while still TRIGGERED, `vad_collector`
emits exactly one final segment holding everything accumulated in the
voiced-segment buffer; and if it never entered the TRIGGERED state on
the input, it emits zero segments. -/
theorem final_flush_and_never_triggered (maxlen : Nat)
    (classify : List Nat → Bool) (frames : List Frame) :
    ((vadRun maxlen classify initState frames).1.triggered = true →
      vadCollectorM maxlen classify frames =
        (vadRun maxlen classify initState frames).2 ++
          [segBytes (vadRun maxlen classify initState frames).1.voiced]) ∧
    (neverTriggers maxlen classify frames = true →
      vadCollectorM maxlen classify frames = []) := by
  constructor
  · intro htr
    have hwfF := (vadRun_chained maxlen classify frames initState
      ⟨fun h => Bool.noConfusion h, fun _ => rfl⟩).1
    rw [vadCollectorM_eq, if_neg (hwfF.1 htr)]
  · intro hnt
    have hpt : ∀ k,
        (vadRun maxlen classify initState (frames.take k)).1.triggered
          = false := by
      intro k
      by_cases hk : k ≤ frames.length
      · have := List.all_eq_true.mp hnt k (List.mem_range.mpr (by omega))
        simpa using this
      · have h1 : frames.take k = frames := List.take_of_length_le (by omega)
        have h2 := List.all_eq_true.mp hnt frames.length
          (List.mem_range.mpr (by omega))
        rw [List.take_length] at h2
        rw [h1]
        simpa using h2
    obtain ⟨hout, hvd⟩ := vadRun_never_triggered maxlen classify frames
      initState rfl rfl hpt
    rw [vadCollectorM_eq, if_pos hvd, hout, List.append_nil]

/-- Closed witness for C4: both branches applied at concrete inputs —
a speech frame with capacity 1 ends TRIGGERED and is flushed as the one
final segment; a speech frame with capacity 2 never triggers and yields
nothing. -/
theorem final_flush_and_never_triggered_witness :
    vadCollectorM 1 (fun _ => true) [⟨[1], 0, 0⟩] =
      (vadRun 1 (fun _ => true) initState [⟨[1], 0, 0⟩]).2 ++
        [segBytes (vadRun 1 (fun _ => true) initState [⟨[1], 0, 0⟩]).1.voiced] ∧
    vadCollectorM 2 (fun _ => true) [⟨[1], 0, 0⟩] = [] :=
  ⟨(final_flush_and_never_triggered 1 (fun _ => true) [⟨[1], 0, 0⟩]).1
      (by decide),
   (final_flush_and_never_triggered 2 (fun _ => true) [⟨[1], 0, 0⟩]).2
      (by decide)⟩

end SR
